import Mathlib

/-!
Verification development for the cloud-radar-server replay engine (src/app.py).

The Python source is shallowly embedded:
* instants are integers (microseconds since the Unix epoch for the
  simulation-window arithmetic of make_simulation_times, seconds since the
  Unix epoch for the placefile timestamp arithmetic and the playback clock);
  Python datetime arithmetic over UTC is linear time, so field operations
  (replace, strftime, strptime) are expressed through integer div/mod and a
  proleptic-Gregorian day-number conversion,
* Python floats that hold exact small decimals are embedded as rationals,
* fallible operations (strptime raising ValueError, list indexing raising
  IndexError, timedelta overflow raising OverflowError) return Option,
* text is List Char; Python str.find / in / replace / slicing are embedded
  by the list functions below.
-/

set_option maxHeartbeats 4000000
set_option maxRecDepth 8000

namespace CloudRadar

/-! Generic helpers: Python integer/float rounding and string primitives. -/

/-- Python round() (banker's rounding, ties to even) on an exact rational,
computed on the numerator/denominator pair. -/
def pyround (q : ℚ) : ℤ :=
  let n := q.num
  let d := (q.den : ℤ)
  let f := n / d
  let r2 := 2 * (n - f * d)
  if r2 < d then f else if d < r2 then f + 1 else if f % 2 = 0 then f else f + 1

/-- Python substring containment, s2 in s1 (str.__contains__). -/
def containsSub : List Char → List Char → Bool
  | [], pat => pat.isEmpty
  | s@(_ :: rest), pat => pat.isPrefixOf s || containsSub rest pat

/-- Python str.find: index of the first occurrence of pat in s.  Returns
s.length when pat does not occur (the callers in app.py only use it after an
`in` check, so the -1 case of Python never influences behaviour). -/
def findSub : List Char → List Char → ℕ
  | [], _ => 0
  | s@(_ :: rest), pat => if pat.isPrefixOf s then 0 else findSub rest pat + 1

/-- Helper for replaceAll: fuel-driven left-to-right scan so that the
definition is structurally recursive and kernel-reducible. -/
def replaceAllAux (old new : List Char) : ℕ → List Char → List Char
  | 0, s => s
  | _ + 1, [] => []
  | fuel + 1, s@(c :: rest) =>
    if old.isPrefixOf s then new ++ replaceAllAux old new fuel (s.drop old.length)
    else c :: replaceAllAux old new fuel rest

/-- Python str.replace(old, new): replace every non-overlapping occurrence of
old, scanning left to right.  Faithful for nonempty old, which is the only way
app.py calls it (the replaced spans are parsed timestamp texts). -/
def replaceAll (s old new : List Char) : List Char :=
  replaceAllAux old new s.length s

/-! SimulationClock (make_simulation_times, src/app.py lines 225-283).
Instants are microseconds since the Unix epoch. -/

/-- The playback-start rounding of make_simulation_times:
`playback_start.replace(second=0, microsecond=0)` followed by
`replace(minute=0)` when the minute field is below 30 and `replace(minute=30)`
otherwise.  Minute boundaries sit at multiples of 60000000 microseconds and the
minute field of t is (t / 60000000) % 60. -/
def snapHalfHour (t : ℤ) : ℤ :=
  let t1 := t - t % 60000000
  let m := (t1 / 60000000) % 60
  if m < 30 then t1 - m * 60000000 else t1 - (m - 30) * 60000000

theorem snapHalfHour_eq (t : ℤ) :
    snapHalfHour t = t - t % 1800000000 := by
  simp only [snapHalfHour]
  split <;> omega

/-- The outputs of make_simulation_times that the claims are about.  The
string renderings of these instants are value-level duplicates and are not
modelled. -/
structure SimTimes where
  playback_start : ℤ
  playback_end : ℤ
  playback_clock : ℤ
  simulation_seconds_shift : ℤ
  increment_list : List ℤ

/-- The increment_list loop of make_simulation_times:
playback_start + 300*t seconds for t in range(int(event_duration/5) + 1). -/
def incrementList (playback_start : ℤ) (event_duration : ℕ) : List ℤ :=
  (List.range (event_duration / 5 + 1)).map
    (fun t : ℕ => playback_start + (t : ℤ) * 300000000)

/-- make_simulation_times: playback_start is now minus two hours with
seconds/microseconds zeroed and the minute snapped down to 0 or 30;
playback_end adds event_duration minutes; playback_clock adds 600 seconds;
simulation_seconds_shift is round((playback_start - event_start).total_seconds()). -/
def make_simulation_times (now event_start_time : ℤ) (event_duration : ℕ) : SimTimes :=
  let playback_start := snapHalfHour (now - 7200000000)
  let playback_end := playback_start + (event_duration : ℤ) * 60000000
  let playback_clock := playback_start + 600000000
  let shift := pyround (((playback_start - event_start_time : ℤ) : ℚ) / 1000000)
  ⟨playback_start, playback_end, playback_clock, shift,
    incrementList playback_start event_duration⟩

theorem mst_playback_start (now es : ℤ) (d : ℕ) :
    (make_simulation_times now es d).playback_start
      = snapHalfHour (now - 7200000000) := rfl

theorem mst_playback_end (now es : ℤ) (d : ℕ) :
    (make_simulation_times now es d).playback_end
      = snapHalfHour (now - 7200000000) + (d : ℤ) * 60000000 := rfl

theorem mst_playback_clock (now es : ℤ) (d : ℕ) :
    (make_simulation_times now es d).playback_clock
      = snapHalfHour (now - 7200000000) + 600000000 := rfl

theorem mst_increment_list (now es : ℤ) (d : ℕ) :
    (make_simulation_times now es d).increment_list
      = incrementList (snapHalfHour (now - 7200000000)) d := rfl

/-- C3: for every event_start, event_duration and wall-clock instant now, the
computed window has playback_start = now - 2h truncated to the nearest
half-hour boundary not after it (seconds and microseconds zeroed, minute
snapped down to 0 or 30), playback_end = playback_start + duration minutes,
and initial playback_clock = playback_start + 10 minutes. -/
theorem make_simulation_times_window (now event_start : ℤ) (d : ℕ) :
    (make_simulation_times now event_start d).playback_start
        = (now - 7200000000) - (now - 7200000000) % 1800000000 ∧
    (make_simulation_times now event_start d).playback_start % 1800000000 = 0 ∧
    (make_simulation_times now event_start d).playback_start ≤ now - 7200000000 ∧
    now - 7200000000
        < (make_simulation_times now event_start d).playback_start + 1800000000 ∧
    (make_simulation_times now event_start d).playback_end
        = (make_simulation_times now event_start d).playback_start + (d : ℤ) * 60000000 ∧
    (make_simulation_times now event_start d).playback_clock
        = (make_simulation_times now event_start d).playback_start + 600000000 := by
  rw [mst_playback_start, mst_playback_end, mst_playback_clock, snapHalfHour_eq]
  omega

/-- C7 counterexample: with event_duration = 1 minute (not a multiple of 5)
and now chosen so that playback_start = 0, the dropdown increment list is just
[playback_start]; its last entry is not playback_end, so the list does not
span the full interval up to playback_end as the claim states. -/
theorem make_simulation_times_duration_one_gap :
    (make_simulation_times 7200000000 0 1).increment_list = [0] ∧
    (make_simulation_times 7200000000 0 1).playback_end = 60000000 ∧
    (make_simulation_times 7200000000 0 1).increment_list.getLast?
      ≠ some (make_simulation_times 7200000000 0 1).playback_end := by
  refine ⟨by decide, by decide, by decide⟩

theorem incrementList_length (p : ℤ) (d : ℕ) :
    (incrementList p d).length = d / 5 + 1 := by
  rw [incrementList, List.length_map, List.length_range]

theorem incrementList_getElem? (p : ℤ) (d i : ℕ) (hi : i < d / 5 + 1) :
    (incrementList p d)[i]? = some (p + (i : ℤ) * 300000000) := by
  rw [incrementList, List.getElem?_map, List.getElem?_range hi, Option.map_some']

/-- C7 amended: the jump-target list has int(event_duration/5) + 1 entries at
5-minute increments starting at playback_start; every entry lies in
[playback_start, playback_end]; the last entry is
playback_start + 300 * (event_duration / 5) seconds, which equals playback_end
exactly when the duration is a multiple of five minutes. -/
theorem make_simulation_times_increments (now event_start : ℤ) (d : ℕ) :
    (make_simulation_times now event_start d).increment_list.length = d / 5 + 1 ∧
    (∀ i : ℕ, i < d / 5 + 1 →
      (make_simulation_times now event_start d).increment_list[i]?
        = some ((make_simulation_times now event_start d).playback_start
                  + (i : ℤ) * 300000000)) ∧
    (make_simulation_times now event_start d).increment_list[0]?
      = some (make_simulation_times now event_start d).playback_start ∧
    (make_simulation_times now event_start d).increment_list.getLast?
      = some ((make_simulation_times now event_start d).playback_start
                + ((d / 5 : ℕ) : ℤ) * 300000000) ∧
    (∀ t ∈ (make_simulation_times now event_start d).increment_list,
      (make_simulation_times now event_start d).playback_start ≤ t ∧
        t ≤ (make_simulation_times now event_start d).playback_end) ∧
    (d % 5 = 0 →
      (make_simulation_times now event_start d).increment_list.getLast?
        = some (make_simulation_times now event_start d).playback_end) := by
  rw [mst_increment_list, mst_playback_start, mst_playback_end]
  refine ⟨incrementList_length _ d, fun i hi => incrementList_getElem? _ d i hi,
    by simpa using incrementList_getElem? _ d 0 (by omega), ?_, ?_, ?_⟩
  · rw [List.getLast?_eq_getElem?, incrementList_length,
      (by omega : d / 5 + 1 - 1 = d / 5), incrementList_getElem? _ d (d / 5) (by omega)]
  · intro t ht
    rw [incrementList, List.mem_map] at ht
    obtain ⟨i, hi, rfl⟩ := ht
    rw [List.mem_range] at hi
    constructor
    · omega
    · omega
  · intro h5
    rw [List.getLast?_eq_getElem?, incrementList_length,
      (by omega : d / 5 + 1 - 1 = d / 5), incrementList_getElem? _ d (d / 5) (by omega),
      Option.some_inj]
    omega

/-- Witness for make_simulation_times_increments at the 60-minute scenario. -/
theorem make_simulation_times_increments_witness :
    (make_simulation_times 7200000000 0 60).increment_list[3]?
        = some ((make_simulation_times 7200000000 0 60).playback_start
                  + ((3 : ℕ) : ℤ) * 300000000) ∧
    (make_simulation_times 7200000000 0 60).increment_list.getLast?
        = some (make_simulation_times 7200000000 0 60).playback_end := by
  have h := make_simulation_times_increments 7200000000 0 60
  exact ⟨h.2.1 3 (by norm_num), h.2.2.2.2.2 (by norm_num)⟩

/-! PlaybackStateMachine (manage_clock_ and update_playback_speed,
src/app.py lines 920-1066).  The Dash callback reads the trigger id and the
current input values, mutates the playback_specs dictionary and returns the
new component states; it is embedded as a function from the trigger, the
input values and the previous specs to the new specs plus the list of
notifications sent to the UpdateHodoHTML / UpdateDirList sinks.  Clock values
are seconds since the Unix epoch; the string round-trips through the
dcc.Store are value-level identities and are not modelled. -/

/-- The two feedback styles the callback assigns (lc.feedback_green /
lc.feedback_yellow) plus the playback_times style is irrelevant here. -/
inductive Style
  | green
  | yellow
  deriving DecidableEq

/-- One fire-and-forget notification to an external sink: UpdateHodoHTML gets
the playback-clock string, UpdateDirList gets a radar id and the same string.
Instants carry the value of the rendered string. -/
inductive Effect
  | updateHodo (t : ℤ)
  | updateDirList (radar : String) (t : ℤ)
  deriving DecidableEq

/-- The playback_specs dictionary fields manage_clock_ reads or writes. -/
structure Specs where
  playback_speed : ℚ
  playback_clock : ℤ
  playback_start : ℤ
  playback_end : ℤ
  playback_paused : Bool
  interval_disabled : Bool
  status : String
  playback_btn_text : String
  style : Style
  new_radar : String
  radar_list : List String

/-- The possible values of ctx.triggered_id inside manage_clock_. -/
inductive Trigger
  | playback_timer
  | pause_resume_playback_btn
  | change_time
  | playback_running_store
  | playback_speed_store
  deriving DecidableEq

/-- date_time_string renders an instant with strftime "%Y-%m-%d %H:%M";
value-wise this truncates the instant to minute resolution. -/
def date_time_string (t : ℤ) : ℤ := t - t % 60

/-- The notification block repeated in manage_clock_ (and initiate_playback):
UpdateHodoHTML with the current playback-clock string, then UpdateDirList for
the transposed radar if one is configured, else for every selected radar. -/
def emitUpdates (specs : Specs) (t : ℤ) : List Effect :=
  Effect.updateHodo t ::
    (if specs.new_radar ≠ "None" then [Effect.updateDirList specs.new_radar t]
     else specs.radar_list.map (fun r => Effect.updateDirList r t))

/-- manage_clock_ (src/app.py lines 937-1063).  The five sequential
`if triggered_id == ...` blocks are mutually exclusive on the trigger, except
that the final block (restoring interval_disabled/status/btn_text/paused/style
from the stored specs, "without this, a change to either the playback speed or
playback time will restart a paused simulation") applies to both the
playback_speed_store and change_time triggers; the translation composes it
into those two branches.  specs['playback_speed'] is overwritten from the
playback_speed input on every invocation before the branches run.  The
notification block only runs off-Windows, hence the isWindows flag. -/
def manage_clock (trig : Trigger) (nclicks : ℕ) (new_time : ℤ) (playback_speed : ℚ)
    (isWindows : Bool) (specs0 : Specs) : Specs × List Effect :=
  let specs := { specs0 with playback_speed := playback_speed }
  match trig with
  | .playback_timer =>
    let clock1 := specs.playback_clock + pyround (15 * playback_speed)
    let specs := { specs with playback_clock := clock1 }
    let effects :=
      if clock1 < specs.playback_end ∧ isWindows = false then
        emitUpdates specs (date_time_string clock1)
      else []
    if specs.playback_end ≤ clock1 then
      ({ specs with playback_clock := specs.playback_end,
                    interval_disabled := true, playback_paused := true,
                    status := "Simulation Complete",
                    playback_btn_text := "Restart Simulation",
                    style := Style.yellow }, effects)
    else
      ({ specs with interval_disabled := false, status := "Running",
                    playback_paused := false,
                    playback_btn_text := "Pause Playback",
                    style := Style.green }, effects)
  | .pause_resume_playback_btn =>
    if nclicks % 2 = 1 then
      ({ specs with interval_disabled := true, status := "Paused",
                    playback_paused := true,
                    playback_btn_text := "Resume Playback",
                    style := Style.yellow }, [])
    else
      ({ specs with interval_disabled := false, status := "Running",
                    playback_paused := false,
                    playback_btn_text := "Pause Playback",
                    style := Style.green }, [])
  | .change_time =>
    let specs := { specs with playback_clock := new_time }
    let effects := if isWindows = false then emitUpdates specs new_time else []
    ({ specs with interval_disabled := specs0.interval_disabled,
                  status := specs0.status,
                  playback_paused := specs0.playback_paused,
                  playback_btn_text := specs0.playback_btn_text,
                  style := specs0.style }, effects)
  | .playback_running_store =>
    ({ specs with interval_disabled := false, status := "Running",
                  playback_paused := false,
                  playback_btn_text := "Pause Playback",
                  style := Style.green }, [])
  | .playback_speed_store =>
    ({ specs with interval_disabled := specs0.interval_disabled,
                  status := specs0.status,
                  playback_paused := specs0.playback_paused,
                  playback_btn_text := specs0.playback_btn_text,
                  style := specs0.style }, [])

/-- C4: in any state, a change_time trigger (JumpTo) sets the clock to the
requested instant while restoring status, paused flag, interval state and
button text from the stored specs, and a playback_speed_store trigger
(SpeedChange) stores the new speed while leaving status, paused flag,
interval state and clock unchanged; neither trigger can resume a paused
session, since both copy the stored paused/status fields verbatim. -/
theorem manage_clock_jump_and_speed_frame :
    (∀ (n : ℕ) (t : ℤ) (v : ℚ) (w : Bool) (s : Specs),
      (manage_clock Trigger.change_time n t v w s).1.playback_clock = t ∧
      (manage_clock Trigger.change_time n t v w s).1.status = s.status ∧
      (manage_clock Trigger.change_time n t v w s).1.playback_paused
          = s.playback_paused ∧
      (manage_clock Trigger.change_time n t v w s).1.interval_disabled
          = s.interval_disabled ∧
      (manage_clock Trigger.change_time n t v w s).1.playback_btn_text
          = s.playback_btn_text) ∧
    (∀ (n : ℕ) (t : ℤ) (v : ℚ) (w : Bool) (s : Specs),
      (manage_clock Trigger.playback_speed_store n t v w s).1.playback_speed = v ∧
      (manage_clock Trigger.playback_speed_store n t v w s).1.status = s.status ∧
      (manage_clock Trigger.playback_speed_store n t v w s).1.playback_paused
          = s.playback_paused ∧
      (manage_clock Trigger.playback_speed_store n t v w s).1.interval_disabled
          = s.interval_disabled ∧
      (manage_clock Trigger.playback_speed_store n t v w s).1.playback_clock
          = s.playback_clock) :=
  ⟨fun _ _ _ _ _ => ⟨rfl, rfl, rfl, rfl, rfl⟩,
   fun _ _ _ _ _ => ⟨rfl, rfl, rfl, rfl, rfl⟩⟩

theorem pyround_fifteen : pyround (15 * (1 : ℚ)) = 15 := by
  rw [mul_one]
  decide

/-- The playback_specs record as initiate_playback creates it for a session
that starts Running at instant start with the given window end and speed (the
interval component enabled, status Running, no transposed radar). -/
def runningSpecs (start E : ℤ) (speed : ℚ) : Specs where
  playback_speed := speed
  playback_clock := start
  playback_start := start
  playback_end := E
  playback_paused := false
  interval_disabled := false
  status := "Running"
  playback_btn_text := "Pause Playback"
  style := Style.green
  new_radar := "None"
  radar_list := []

/-- The specs record after the tick branch of manage_clock_ has detected the
end of the window: clock clamped to playback_end, interval disabled, paused,
status "Simulation Complete". -/
def completedSpecs (start E : ℤ) (speed : ℚ) : Specs :=
  { runningSpecs start E speed with
      playback_clock := E, interval_disabled := true, playback_paused := true,
      status := "Simulation Complete", playback_btn_text := "Restart Simulation",
      style := Style.yellow }

/-- N playback_timer firings delivered to manage_clock_ in sequence. -/
def tick_iter (speed : ℚ) (w : Bool) : ℕ → Specs → Specs
  | 0, s => s
  | n + 1, s =>
    (manage_clock Trigger.playback_timer 0 0 speed w (tick_iter speed w n s)).1

theorem tick_iter_running (start E : ℤ) (hE : start < E) (N : ℕ) :
    tick_iter 1 false N (runningSpecs start E 1)
      = if start + 15 * (N : ℤ) < E
        then { runningSpecs start E 1 with playback_clock := start + 15 * (N : ℤ) }
        else completedSpecs start E 1 := by
  induction N with
  | zero =>
    rw [tick_iter, if_pos (by push_cast; omega)]
    simp [runningSpecs]
  | succ n ih =>
    rw [tick_iter, ih]
    by_cases hn : start + 15 * ((n : ℕ) : ℤ) < E
    · rw [if_pos hn]
      by_cases hn1 : start + 15 * ((n + 1 : ℕ) : ℤ) < E
      · rw [if_pos hn1]
        simp only [manage_clock, pyround_fifteen, runningSpecs, completedSpecs]
        rw [if_neg (by push_cast at hn1 ⊢; omega)]
        simp only [Specs.mk.injEq, true_and, and_true]
        push_cast
        ring
      · rw [if_neg hn1]
        simp only [manage_clock, pyround_fifteen, runningSpecs, completedSpecs]
        rw [if_pos (by push_cast at hn1 ⊢; omega)]
    · rw [if_neg hn]
      rw [if_neg (by push_cast at hn ⊢; omega)]
      simp only [manage_clock, pyround_fifteen, runningSpecs, completedSpecs]
      rw [if_pos (by omega)]

/-- C1: a playback_timer trigger adds round(15 * speed) seconds to the clock;
below playback_end the machine stays Running and notifies the sinks at the new
clock (rendered at the minute resolution of date_time_string); at or past
playback_end the clock is clamped to exactly playback_end, the interval is
disabled, status becomes "Simulation Complete" and nothing is emitted.
Starting Running at clock = playback_start with speed 1.0, after N ticks the
clock is playback_start + 15N seconds while that is below playback_end, and
once it reaches playback_end the clock is exactly playback_end with status
"Simulation Complete". -/
theorem manage_clock_tick_behaviour :
    (∀ (s : Specs) (n : ℕ) (t : ℤ) (v : ℚ),
      (s.playback_clock + pyround (15 * v) < s.playback_end →
        (manage_clock Trigger.playback_timer n t v false s).1.playback_clock
            = s.playback_clock + pyround (15 * v) ∧
        (manage_clock Trigger.playback_timer n t v false s).1.status = "Running" ∧
        (manage_clock Trigger.playback_timer n t v false s).1.interval_disabled
            = false ∧
        (manage_clock Trigger.playback_timer n t v false s).1.playback_paused
            = false ∧
        (manage_clock Trigger.playback_timer n t v false s).2
            = emitUpdates
                { s with playback_speed := v,
                         playback_clock := s.playback_clock + pyround (15 * v) }
                (date_time_string (s.playback_clock + pyround (15 * v)))) ∧
      (s.playback_end ≤ s.playback_clock + pyround (15 * v) →
        (manage_clock Trigger.playback_timer n t v false s).1.playback_clock
            = s.playback_end ∧
        (manage_clock Trigger.playback_timer n t v false s).1.status
            = "Simulation Complete" ∧
        (manage_clock Trigger.playback_timer n t v false s).1.interval_disabled
            = true ∧
        (manage_clock Trigger.playback_timer n t v false s).1.playback_paused
            = true ∧
        (manage_clock Trigger.playback_timer n t v false s).2 = [])) ∧
    (∀ (start E : ℤ) (N : ℕ), start < E →
      (start + 15 * (N : ℤ) < E →
        (tick_iter 1 false N (runningSpecs start E 1)).playback_clock
            = start + 15 * (N : ℤ) ∧
        (tick_iter 1 false N (runningSpecs start E 1)).status = "Running") ∧
      (E ≤ start + 15 * (N : ℤ) →
        (tick_iter 1 false N (runningSpecs start E 1)).playback_clock = E ∧
        (tick_iter 1 false N (runningSpecs start E 1)).status
            = "Simulation Complete" ∧
        (tick_iter 1 false N (runningSpecs start E 1)).interval_disabled = true)) := by
  constructor
  · intro s n t v
    constructor
    · intro h
      simp only [manage_clock, eq_self_iff_true, and_true]
      rw [if_neg (by omega), if_pos h]
      exact ⟨rfl, rfl, rfl, rfl, rfl⟩
    · intro h
      simp only [manage_clock, eq_self_iff_true, and_true]
      rw [if_pos h, if_neg (by omega)]
      exact ⟨rfl, rfl, rfl, rfl, rfl⟩
  · intro start E N hE
    rw [tick_iter_running start E hE N]
    constructor
    · intro h
      rw [if_pos h]
      exact ⟨rfl, rfl⟩
    · intro h
      rw [if_neg (by omega)]
      exact ⟨rfl, rfl, rfl⟩

/-- Witness for manage_clock_tick_behaviour: one tick from clock 0 with speed
1 in a window ending at 100 advances to 15 and stays Running; seven ticks
reach 105 >= 100, so the clock is clamped to 100 and the session completes. -/
theorem manage_clock_tick_behaviour_witness :
    (manage_clock Trigger.playback_timer 0 0 1 false (runningSpecs 0 100 1)).1.playback_clock
        = 0 + pyround (15 * 1) ∧
    (manage_clock Trigger.playback_timer 0 0 1 false (runningSpecs 0 100 1)).1.status
        = "Running" ∧
    (tick_iter 1 false 7 (runningSpecs 0 100 1)).playback_clock = 100 ∧
    (tick_iter 1 false 7 (runningSpecs 0 100 1)).status = "Simulation Complete" := by
  have h := manage_clock_tick_behaviour
  have h1 := (h.1 (runningSpecs 0 100 1) 0 0 1).1
    (by rw [pyround_fifteen]; norm_num [runningSpecs])
  have h2 := (h.2 0 100 7 (by norm_num)).2 (by norm_num)
  exact ⟨h1.1, h1.2.1, h2.1, h2.2.1⟩

/-- Numeric value of a digit string, most significant first. -/
def digitsVal (ds : List Char) : ℕ :=
  ds.foldl (fun a c => a * 10 + (c.toNat - 48)) 0

/-- Sign, combined digit value and fractional length of a decimal literal:
optional surrounding spaces, an optional sign, integer digits with an optional
fractional part.  The represented value is sign * digits / 10 ^ fracLen. -/
def pyFloatParts? (s : List Char) : Option (ℤ × ℕ × ℕ) :=
  let s2 := ((s.dropWhile (fun c => c = ' ')).reverse.dropWhile
    (fun c => c = ' ')).reverse
  let signBody : ℤ × List Char :=
    match s2 with
    | '-' :: r => (-1, r)
    | '+' :: r => (1, r)
    | _ => (1, s2)
  let ip := signBody.2.takeWhile Char.isDigit
  let r1 := signBody.2.dropWhile Char.isDigit
  match r1 with
  | [] => if ip.isEmpty then none else some (signBody.1, digitsVal ip, 0)
  | '.' :: r2 =>
    let fp := r2.takeWhile Char.isDigit
    if (r2.dropWhile Char.isDigit).isEmpty = false then none
    else if ip.isEmpty && fp.isEmpty then none
    else some (signBody.1, digitsVal (ip ++ fp), fp.length)
  | _ => none

/-- The Python float() conversion used by update_playback_speed, on the
decimal forms a speed dropdown can deliver.  Python's full float() grammar
additionally accepts exponents and inf/nan spellings, which never parse to a
playback speed here; any such input is simply none (a ValueError) in this
model. -/
def pyFloat? (s : List Char) : Option ℚ :=
  match pyFloatParts? s with
  | some (sg, m, k) => some ((sg : ℚ) * (m : ℚ) / 10 ^ k)
  | none => none

/-- update_playback_speed (src/app.py lines 1047-1066): float(selected_speed)
with a ValueError falling back to 1.0; the parsed value is returned with no
further validation. -/
def update_playback_speed (selected_speed : List Char) : ℚ :=
  match pyFloat? selected_speed with
  | some v => v
  | none => 1

/-- C9 counterexample: the dropdown value "-2.0" parses as the float -2.0 and
update_playback_speed returns it unchanged, so the playback_speed_store input
of the clock state machine receives a non-positive speed; only unparsable
values are replaced (by 1.0) and no positivity check exists at the boundary. -/
theorem update_playback_speed_negative_delivered :
    update_playback_speed ['-', '2', '.', '0'] = -2 ∧
    ¬ (0 : ℚ) < update_playback_speed ['-', '2', '.', '0'] ∧
    (manage_clock Trigger.playback_speed_store 0 0
        (update_playback_speed ['-', '2', '.', '0']) false
        (runningSpecs 0 100 1)).1.playback_speed = -2 := by
  have hp : pyFloatParts? ['-', '2', '.', '0'] = some (-1, 20, 1) := by decide
  have hv : update_playback_speed ['-', '2', '.', '0'] = -2 := by
    rw [update_playback_speed, pyFloat?, hp]
    norm_num
  refine ⟨hv, by rw [hv]; norm_num, by rw [hv]; rfl⟩

/-- C9 amended: update_playback_speed sanitises only parse failures, mapping
them to 1.0; every value that parses as a float, including zero and negative
values, is stored and delivered to the state machine unvalidated. -/
theorem update_playback_speed_no_positivity_check :
    (∀ s : List Char, pyFloat? s = none → update_playback_speed s = 1) ∧
    (∀ (s : List Char) (q : ℚ), pyFloat? s = some q →
      update_playback_speed s = q ∧
      ∀ (n : ℕ) (t : ℤ) (w : Bool) (sp : Specs),
        (manage_clock Trigger.playback_speed_store n t
            (update_playback_speed s) w sp).1.playback_speed = q) := by
  constructor
  · intro s h
    rw [update_playback_speed, h]
  · intro s q h
    have hq : update_playback_speed s = q := by rw [update_playback_speed, h]
    exact ⟨hq, fun n t w sp => by rw [hq]; rfl⟩

/-- Witness for update_playback_speed_no_positivity_check at the inputs "x"
(a parse failure) and "0.5" (a parsed speed). -/
theorem update_playback_speed_no_positivity_check_witness :
    update_playback_speed ['x'] = 1 ∧
    update_playback_speed ['0', '.', '5'] = 1 / 2 := by
  have h := update_playback_speed_no_positivity_check
  have hx : pyFloatParts? ['x'] = none := by decide
  have h05 : pyFloatParts? ['0', '.', '5'] = some (1, 5, 1) := by decide
  constructor
  · exact h.1 ['x'] (by rw [pyFloat?, hx])
  · exact (h.2 ['0', '.', '5'] (1 / 2) (by rw [pyFloat?, h05]; norm_num)).1

/-! PlacefileRewriter (shift_placefiles / shift_time, src/app.py lines 79-135).
Datetimes handled by shift_time are whole seconds; they are embedded as
seconds since the Unix epoch through a proleptic-Gregorian day-number
conversion (Python datetime arithmetic in UTC is linear time over exactly
this calendar).  strptime is embedded following the regular expressions that
CPython's _strptime builds for the two formats used here, including their
case-insensitive matching, and strftime by zero-padded field rendering. -/

/-- Day number (days since 1970-01-01) of a proleptic-Gregorian civil date,
via the standard era/year-of-era decomposition. -/
def daysFromCivil (y m d : ℤ) : ℤ :=
  let yy := if m ≤ 2 then y - 1 else y
  let mp := if m ≤ 2 then m + 9 else m - 3
  let era := yy / 400
  let yoe := yy - era * 400
  let doy := (153 * mp + 2) / 5 + d - 1
  let doe := yoe * 365 + yoe / 4 - yoe / 100 + doy
  era * 146097 + doe - 719468

/-- Civil date (y, m, d) of a day number, inverse of daysFromCivil. -/
def civilFromDays (z0 : ℤ) : ℤ × ℤ × ℤ :=
  let z := z0 + 719468
  let era := z / 146097
  let doe := z - era * 146097
  let yoe := (doe - doe / 1460 + doe / 36524 - doe / 146096) / 365
  let y := yoe + era * 400
  let doy := doe - (365 * yoe + yoe / 4 - yoe / 100)
  let mp := (5 * doy + 2) / 153
  let dd := doy - (153 * mp + 2) / 5 + 1
  let mm := if mp < 10 then mp + 3 else mp - 9
  (if mp < 10 then y else y + 1, mm, dd)

def isLeap (y : ℤ) : Bool :=
  y % 4 = 0 && (y % 100 != 0 || y % 400 = 0)

/-- Length of a month, as enforced by the datetime constructor. -/
def daysInMonth (y m : ℤ) : ℤ :=
  if m = 2 then (if isLeap y then 29 else 28)
  else if m = 4 ∨ m = 6 ∨ m = 9 ∨ m = 11 then 30 else 31

/-- The datetime(year, month, day, hour, minute, second) constructor: range
checks as CPython performs them, then seconds since the Unix epoch. -/
def datetimeSecs? (y mo d h mi sec : ℕ) : Option ℤ :=
  if 1 ≤ y ∧ y ≤ 9999 ∧ 1 ≤ mo ∧ mo ≤ 12 ∧ 1 ≤ d ∧ (d : ℤ) ≤ daysInMonth y mo
      ∧ h ≤ 23 ∧ mi ≤ 59 ∧ sec ≤ 59 then
    some (86400 * daysFromCivil y mo d + 3600 * h + 60 * mi + sec)
  else none

/-- datetime.min and datetime.max bounds in whole seconds; adding a timedelta
that leaves this range raises OverflowError. -/
def minDatetime : ℤ := 86400 * daysFromCivil 1 1 1

def maxDatetime : ℤ := 86400 * daysFromCivil 9999 12 31 + 86399

/-- datetime + timedelta(seconds=shift), None on OverflowError. -/
def addSeconds? (t shift : ℤ) : Option ℤ :=
  if minDatetime ≤ t + shift ∧ t + shift ≤ maxDatetime then some (t + shift)
  else none

def digitVal (c : Char) : ℕ := c.toNat - 48

def digitChar (n : ℤ) : Char := Char.ofNat (48 + (n % 10).toNat)

def pad2 (n : ℤ) : List Char := [digitChar (n / 10), digitChar n]

def pad4 (n : ℤ) : List Char :=
  [digitChar (n / 1000), digitChar (n / 100), digitChar (n / 10), digitChar n]

def asciiLower (c : Char) : Char :=
  if 'A' ≤ c ∧ c ≤ 'Z' then Char.ofNat (c.toNat + 32) else c

/-- A literal character of a strptime format; the compiled pattern is
case-insensitive, so the expectation lc is lowercase and input is lowered. -/
def parseLit (lc : Char) : List Char → Option (List Char)
  | c :: rest => if asciiLower c = lc then some rest else none
  | [] => none

def isSpaceChar (c : Char) : Bool :=
  c = ' ' || c = '\t' || c = '\n' || c = '\r' || c = '\x0b' || c = '\x0c'

/-- Whitespace in a strptime format matches one or more whitespace characters
(the format is preprocessed with \s+). -/
def parseWs : List Char → Option (List Char)
  | c :: rest => if isSpaceChar c then some (rest.dropWhile isSpaceChar) else none
  | [] => none

/-- %H, the regex 2[0-3]|[0-1]\d|\d.  In both formats used here the following
format character is never a digit, so taking a matching two-digit alternative
greedily agrees with the backtracking regex engine. -/
def parseH : List Char → Option (ℕ × List Char)
  | c1 :: c2 :: rest =>
    if c1 = '2' ∧ '0' ≤ c2 ∧ c2 ≤ '3' then some (20 + digitVal c2, rest)
    else if (c1 = '0' ∨ c1 = '1') ∧ c2.isDigit then
      some (10 * digitVal c1 + digitVal c2, rest)
    else if c1.isDigit then some (digitVal c1, c2 :: rest)
    else none
  | [c1] => if c1.isDigit then some (digitVal c1, []) else none
  | [] => none

/-- %M, the regex [0-5]\d|\d. -/
def parseM : List Char → Option (ℕ × List Char)
  | c1 :: c2 :: rest =>
    if '0' ≤ c1 ∧ c1 ≤ '5' ∧ c2.isDigit then
      some (10 * digitVal c1 + digitVal c2, rest)
    else if c1.isDigit then some (digitVal c1, c2 :: rest)
    else none
  | [c1] => if c1.isDigit then some (digitVal c1, []) else none
  | [] => none

/-- %S, the regex 6[0-1]|[0-5]\d|\d. -/
def parseS : List Char → Option (ℕ × List Char)
  | c1 :: c2 :: rest =>
    if c1 = '6' ∧ (c2 = '0' ∨ c2 = '1') then some (60 + digitVal c2, rest)
    else if '0' ≤ c1 ∧ c1 ≤ '5' ∧ c2.isDigit then
      some (10 * digitVal c1 + digitVal c2, rest)
    else if c1.isDigit then some (digitVal c1, c2 :: rest)
    else none
  | [c1] => if c1.isDigit then some (digitVal c1, []) else none
  | [] => none

/-- %d, the regex 3[01]|[12]\d|0[1-9]|[1-9]| [1-9]. -/
def parseD : List Char → Option (ℕ × List Char)
  | c1 :: c2 :: rest =>
    if c1 = '3' ∧ (c2 = '0' ∨ c2 = '1') then some (30 + digitVal c2, rest)
    else if (c1 = '1' ∨ c1 = '2') ∧ c2.isDigit then
      some (10 * digitVal c1 + digitVal c2, rest)
    else if c1 = '0' ∧ c2.isDigit ∧ c2 ≠ '0' then some (digitVal c2, rest)
    else if c1.isDigit ∧ c1 ≠ '0' then some (digitVal c1, c2 :: rest)
    else if c1 = ' ' ∧ c2.isDigit ∧ c2 ≠ '0' then some (digitVal c2, rest)
    else none
  | [c1] => if c1.isDigit ∧ c1 ≠ '0' then some (digitVal c1, []) else none
  | [] => none

/-- %m, the regex 1[0-2]|0[1-9]|[1-9]. -/
def parseMon2 : List Char → Option (ℕ × List Char)
  | c1 :: c2 :: rest =>
    if c1 = '1' ∧ (c2 = '0' ∨ c2 = '1' ∨ c2 = '2') then
      some (10 + digitVal c2, rest)
    else if c1 = '0' ∧ c2.isDigit ∧ c2 ≠ '0' then some (digitVal c2, rest)
    else if c1.isDigit ∧ c1 ≠ '0' then some (digitVal c1, c2 :: rest)
    else none
  | [c1] => if c1.isDigit ∧ c1 ≠ '0' then some (digitVal c1, []) else none
  | [] => none

/-- %Y, the regex of exactly four digits. -/
def parseY : List Char → Option (ℕ × List Char)
  | c1 :: c2 :: c3 :: c4 :: rest =>
    if c1.isDigit ∧ c2.isDigit ∧ c3.isDigit ∧ c4.isDigit then
      some (1000 * digitVal c1 + 100 * digitVal c2 + 10 * digitVal c3
        + digitVal c4, rest)
    else none
  | _ => none

def matchNamePrefix : List Char → List Char → Option (List Char)
  | [], s => some s
  | _ :: _, [] => none
  | n :: ns, c :: cs =>
    if asciiLower c = n then matchNamePrefix ns cs else none

/-- Ordered alternation over a name table (all entries the same length), as
the strptime pattern for %a / %b; returns the index of the matched name. -/
def matchSeq : List (List Char) → ℕ → List Char → Option (ℕ × List Char)
  | [], _, _ => none
  | nm :: rest, i, s =>
    match matchNamePrefix nm s with
    | some r => some (i, r)
    | none => matchSeq rest (i + 1) s

def dayAbbrsLower : List (List Char) :=
  [['m','o','n'], ['t','u','e'], ['w','e','d'], ['t','h','u'], ['f','r','i'],
   ['s','a','t'], ['s','u','n']]

def monAbbrsLower : List (List Char) :=
  [['j','a','n'], ['f','e','b'], ['m','a','r'], ['a','p','r'], ['m','a','y'],
   ['j','u','n'], ['j','u','l'], ['a','u','g'], ['s','e','p'], ['o','c','t'],
   ['n','o','v'], ['d','e','c']]

def dayAbbrs : List (List Char) :=
  [['M','o','n'], ['T','u','e'], ['W','e','d'], ['T','h','u'], ['F','r','i'],
   ['S','a','t'], ['S','u','n']]

def monAbbrs : List (List Char) :=
  [['J','a','n'], ['F','e','b'], ['M','a','r'], ['A','p','r'], ['M','a','y'],
   ['J','u','n'], ['J','u','l'], ['A','u','g'], ['S','e','p'], ['O','c','t'],
   ['N','o','v'], ['D','e','c']]

/-- datetime.strptime(s, "%H:%MZ %a %b %d %Y"): the parsed weekday name is
matched but discarded (the datetime is built from the date fields alone); any
unconverted trailing data raises ValueError, hence the final emptiness
check. -/
def strptimeValid (s : List Char) : Option ℤ := do
  let (h, r1) ← parseH s
  let r2 ← parseLit ':' r1
  let (mi, r3) ← parseM r2
  let r4 ← parseLit 'z' r3
  let r5 ← parseWs r4
  let (_wd, r6) ← matchSeq dayAbbrsLower 0 r5
  let r7 ← parseWs r6
  let (mo, r8) ← matchSeq monAbbrsLower 0 r7
  let r9 ← parseWs r8
  let (d, r10) ← parseD r9
  let r11 ← parseWs r10
  let (y, r12) ← parseY r11
  if r12 = [] then datetimeSecs? y (mo + 1) d h mi 0 else none

/-- datetime.strftime(t, "%H:%MZ %a %b %d %Y"). -/
def strftimeValid (t : ℤ) : List Char :=
  let z := t / 86400
  let secs := t % 86400
  let c := civilFromDays z
  pad2 (secs / 3600) ++ [':'] ++ pad2 ((secs % 3600) / 60) ++ ['Z', ' ']
    ++ dayAbbrs.getD ((z + 3) % 7).toNat [] ++ [' ']
    ++ monAbbrs.getD (c.2.1 - 1).toNat [] ++ [' ']
    ++ pad2 c.2.2 ++ [' '] ++ pad4 c.1

/-- datetime.strptime(s, "%Y-%m-%dT%H:%M:%SZ"). -/
def strptimeISO (s : List Char) : Option ℤ := do
  let (y, r1) ← parseY s
  let r2 ← parseLit '-' r1
  let (mo, r3) ← parseMon2 r2
  let r4 ← parseLit '-' r3
  let (d, r5) ← parseD r4
  let r6 ← parseLit 't' r5
  let (h, r7) ← parseH r6
  let r8 ← parseLit ':' r7
  let (mi, r9) ← parseM r8
  let r10 ← parseLit ':' r9
  let (sec, r11) ← parseS r10
  let r12 ← parseLit 'z' r11
  if r12 = [] then datetimeSecs? y mo d h mi sec else none

/-- datetime.strftime(t, "%Y-%m-%dT%H:%M:%SZ"). -/
def strftimeISO (t : ℤ) : List Char :=
  let z := t / 86400
  let secs := t % 86400
  let c := civilFromDays z
  pad4 c.1 ++ ['-'] ++ pad2 c.2.1 ++ ['-'] ++ pad2 c.2.2 ++ ['T']
    ++ pad2 (secs / 3600) ++ [':'] ++ pad2 ((secs % 3600) / 60) ++ [':']
    ++ pad2 (secs % 60) ++ ['Z']

/-- The shape of one TIME_REGEX match,
[0-9]{4}-[0-9]{2}-[0-9]{2}T[0-9]{2}:[0-9]{2}:[0-9]{2}Z (case-sensitive). -/
def isoShape : List Char → Bool
  | [a1, a2, a3, a4, b1, c1, c2, b2, d1, d2, b3, e1, e2, b4, f1, f2, b5, g1, g2, b6] =>
    a1.isDigit && a2.isDigit && a3.isDigit && a4.isDigit && b1 = '-' &&
    c1.isDigit && c2.isDigit && b2 = '-' && d1.isDigit && d2.isDigit &&
    b3 = 'T' && e1.isDigit && e2.isDigit && b4 = ':' && f1.isDigit &&
    f2.isDigit && b5 = ':' && g1.isDigit && g2.isDigit && b6 = 'Z'
  | _ => false

/-- re.findall(TIME_REGEX, line): left-to-right non-overlapping matches. -/
def findAllISO : ℕ → List Char → List (List Char)
  | 0, _ => []
  | _ + 1, [] => []
  | fuel + 1, s@(_ :: rest) =>
    if isoShape (s.take 20) then s.take 20 :: findAllISO fuel (s.drop 20)
    else findAllISO fuel rest

def findallTime (s : List Char) : List (List Char) := findAllISO s.length s

def validTag : List Char := ['V', 'a', 'l', 'i', 'd', ':']

def timeRangeTag : List Char := ['T', 'i', 'm', 'e', 'R', 'a', 'n', 'g', 'e']

/-- shift_time (src/app.py lines 109-135).  The Valid: branch slices
line[idx+len("Valid:")+1:-1] (one character past the tag through the
second-to-last character), parses it, shifts it and substitutes every
occurrence of the parsed span; the TimeRange branch collects the ISO
timestamps of the whole line, shifts the first two and substitutes the
space-joined pair - computing its replacement from the original line, so a
Valid: substitution made on the same line is discarded.  Any parse failure,
missing second ISO timestamp (IndexError) or shifted-out-of-range datetime
(OverflowError) raises, i.e. returns none. -/
def shift_time (line : List Char) (shift : ℤ) : Option (List Char) :=
  let afterValid : Option (List Char) :=
    if containsSub line validTag then
      let idx := findSub line validTag
      let valid_timestring := (line.drop (idx + 7)).dropLast
      match strptimeValid valid_timestring with
      | none => none
      | some dt =>
        match addSeconds? dt shift with
        | none => none
        | some dt2 => some (replaceAll line valid_timestring (strftimeValid dt2))
    else some line
  match afterValid with
  | none => none
  | some new_line =>
    if containsSub line timeRangeTag then
      match findallTime line with
      | m0 :: m1 :: _ =>
        match strptimeISO m0 with
        | none => none
        | some dt0 =>
          match addSeconds? dt0 shift with
          | none => none
          | some dt0' =>
            match strptimeISO m1 with
            | none => none
            | some dt1 =>
              match addSeconds? dt1 shift with
              | none => none
              | some dt1' =>
                some (replaceAll line (m0 ++ [' '] ++ m1)
                  (strftimeISO dt0' ++ [' '] ++ strftimeISO dt1'))
      | _ => none
    else some new_line

/-- C2: on a line carrying both tags (the TimeRange pair first, the Valid:
timestamp as the trailing token so that rule A's slice parses), both rules
fire, but the TimeRange substitution is computed from the original line
(new_line = line.replace(...)), so the Valid: shift is discarded: the output
carries shifted ISO timestamps and the unshifted Valid: timestamp, not the
line with both substitutions that the claim (and the spec's independence of
rules A and B) calls for. -/
theorem shift_time_both_tags_drops_valid_shift :
    shift_time
        (("TimeRange 2024-07-16T00:30:00Z 2024-07-16T00:35:00Z " ++
          "Valid: 00:30Z Tue Jul 16 2024\n").toList) 3600
      = some (("TimeRange 2024-07-16T01:30:00Z 2024-07-16T01:35:00Z " ++
          "Valid: 00:30Z Tue Jul 16 2024\n").toList) ∧
    shift_time
        (("TimeRange 2024-07-16T00:30:00Z 2024-07-16T00:35:00Z " ++
          "Valid: 00:30Z Tue Jul 16 2024\n").toList) 3600
      ≠ some (("TimeRange 2024-07-16T01:30:00Z 2024-07-16T01:35:00Z " ++
          "Valid: 01:30Z Tue Jul 16 2024\n").toList) := by
  constructor
  · decide
  · decide

/-- C6 counterexample: on the claim's own scenario line with the timestamp
running to the very end of the string (no trailing terminator), the Valid:
slice line[idx+7:-1] chops the final year digit, strptime raises ValueError,
and shift_time returns no rewritten line at all instead of the claimed
shifted line. -/
theorem shift_time_valid_no_terminator_raises :
    shift_time (("Valid: 00:30Z Tue Jul 16 2024").toList) 3600 = none := by
  decide

/-- C6 amended: with the timestamp as the trailing token followed by a single
terminator character (the newline that readlines leaves on the line), the
Valid: rule parses HH:MMZ Dow Mon DD YYYY, adds the shift, re-renders in the
same format and substitutes that span, leaving the rest of the line
unchanged: the scenario line becomes Valid: 01:30Z Tue Jul 16 2024. -/
theorem shift_time_valid_scenario :
    shift_time (("Valid: 00:30Z Tue Jul 16 2024\n").toList) 3600
      = some (("Valid: 01:30Z Tue Jul 16 2024\n").toList) := by
  decide


theorem parseH_pad2 (h : ℕ) (hh : h ≤ 23) (rest : List Char) :
    parseH (pad2 (h : ℤ) ++ rest) = some (h, rest) := by
  interval_cases h <;> rfl

theorem parseM_pad2 (mi : ℕ) (hmi : mi ≤ 59) (rest : List Char) :
    parseM (pad2 (mi : ℤ) ++ rest) = some (mi, rest) := by
  interval_cases mi <;> rfl

theorem parseD_pad2 (d : ℕ) (hd1 : 1 ≤ d) (hd : d ≤ 31) (rest : List Char) :
    parseD (pad2 (d : ℤ) ++ rest) = some (d, rest) := by
  interval_cases d <;> rfl

theorem matchSeq_day (wd : ℕ) (hwd : wd < 7) (rest : List Char) :
    matchSeq dayAbbrsLower 0 (dayAbbrs.getD wd [] ++ rest) = some (wd, rest) := by
  interval_cases wd <;> rfl

theorem matchSeq_mon (mo : ℕ) (hmo1 : 1 ≤ mo) (hmo : mo ≤ 12) (rest : List Char) :
    matchSeq monAbbrsLower 0 (monAbbrs.getD (mo - 1) [] ++ rest)
      = some (mo - 1, rest) := by
  interval_cases mo <;> rfl


theorem digitChar_isDigit (n : ℤ) : (digitChar n).isDigit = true := by
  have h : (n % 10).toNat < 10 := by omega
  rw [digitChar]
  generalize (n % 10).toNat = k at h
  interval_cases k <;> rfl

theorem digitVal_digitChar (n : ℤ) : digitVal (digitChar n) = (n % 10).toNat := by
  have h : (n % 10).toNat < 10 := by omega
  rw [digitChar]
  generalize (n % 10).toNat = k at h ⊢
  interval_cases k <;> rfl

theorem digitChar_not_space (n : ℤ) : isSpaceChar (digitChar n) = false := by
  have h : (n % 10).toNat < 10 := by omega
  rw [digitChar]
  generalize (n % 10).toNat = k at h
  interval_cases k <;> rfl

theorem parseY_pad4 (y : ℕ) (hy : y ≤ 9999) (rest : List Char) :
    parseY (pad4 (y : ℤ) ++ rest) = some (y, rest) := by
  simp only [pad4, List.cons_append, List.nil_append, parseY, digitChar_isDigit,
    digitVal_digitChar, if_pos, and_self, if_true, Option.some.injEq, Prod.mk.injEq]
  exact ⟨by omega, trivial⟩

theorem parseWs_one (c : Char) (hc : isSpaceChar c = false) (rest : List Char) :
    parseWs (' ' :: c :: rest) = some (c :: rest) := by
  have hsp : isSpaceChar ' ' = true := rfl
  simp [parseWs, List.dropWhile_cons, hc, hsp]


theorem parseLit_cons (lc c : Char) (hc : asciiLower c = lc) (rest : List Char) :
    parseLit lc (c :: rest) = some rest := by
  simp [parseLit, hc]

theorem parseWs_day (wd : ℕ) (hwd : wd < 7) (rest : List Char) :
    parseWs (' ' :: (dayAbbrs.getD wd [] ++ rest))
      = some (dayAbbrs.getD wd [] ++ rest) := by
  interval_cases wd <;> rfl

theorem parseWs_mon (mo : ℕ) (hmo1 : 1 ≤ mo) (hmo : mo ≤ 12) (rest : List Char) :
    parseWs (' ' :: (monAbbrs.getD (mo - 1) [] ++ rest))
      = some (monAbbrs.getD (mo - 1) [] ++ rest) := by
  interval_cases mo <;> rfl

theorem strptimeValid_shape (h mi wd mo d : ℕ) (c : Char) (rest' : List Char)
    (hh : h ≤ 23) (hmi : mi ≤ 59) (hwd : wd < 7) (hmo1 : 1 ≤ mo) (hmo : mo ≤ 12)
    (hd1 : 1 ≤ d) (hd : d ≤ 31) (hc : isSpaceChar c = false) :
    strptimeValid (pad2 (h : ℤ) ++ ':' :: (pad2 (mi : ℤ) ++ 'Z' :: ' ' ::
        (dayAbbrs.getD wd [] ++ ' ' :: (monAbbrs.getD (mo - 1) [] ++ ' ' ::
          (pad2 (d : ℤ) ++ ' ' :: c :: rest')))))
      = Option.bind (parseY (c :: rest'))
          (fun p => if p.2 = [] then datetimeSecs? p.1 mo d h mi 0 else none) := by
  rw [strptimeValid]
  simp only [List.append_assoc]
  rw [parseH_pad2 h hh]
  simp only [Option.bind_eq_bind, Option.bind, List.singleton_append,
    List.cons_append, List.nil_append]
  rw [parseLit_cons ':' ':' rfl]
  simp only [Option.bind_eq_bind, Option.bind]
  rw [parseM_pad2 mi hmi]
  simp only [Option.bind_eq_bind, Option.bind]
  rw [parseLit_cons 'z' 'Z' rfl]
  simp only [Option.bind_eq_bind, Option.bind]
  rw [parseWs_day wd hwd]
  simp only [Option.bind_eq_bind, Option.bind]
  rw [matchSeq_day wd hwd]
  simp only [Option.bind_eq_bind, Option.bind]
  rw [parseWs_mon mo hmo1 hmo]
  simp only [Option.bind_eq_bind, Option.bind]
  rw [matchSeq_mon mo hmo1 hmo]
  simp only [Option.bind_eq_bind, Option.bind]
  have hws : parseWs (' ' :: (pad2 (d : ℤ) ++ ' ' :: c :: rest'))
      = some (pad2 (d : ℤ) ++ ' ' :: c :: rest') := by
    simp only [pad2, List.cons_append, List.nil_append]
    exact parseWs_one _ (digitChar_not_space _) _
  rw [hws]
  simp only [Option.bind_eq_bind, Option.bind]
  rw [parseD_pad2 d hd1 hd]
  simp only [Option.bind_eq_bind, Option.bind]
  rw [parseWs_one c hc]
  simp only [Option.bind_eq_bind, Option.bind]
  have hmo' : mo - 1 + 1 = mo := by omega
  rw [hmo']


/-- The canonical rendering of a Valid: timestamp, HH:MMZ Dow Mon DD YYYY
with zero-padded numeric fields, exactly as strftimeValid produces it. -/
def renderValidTS (h mi wd mo d y : ℕ) : List Char :=
  pad2 (h : ℤ) ++ [':'] ++ pad2 (mi : ℤ) ++ ['Z', ' '] ++ dayAbbrs.getD wd []
    ++ [' '] ++ monAbbrs.getD (mo - 1) [] ++ [' '] ++ pad2 (d : ℤ) ++ [' ']
    ++ pad4 (y : ℤ)

theorem strptimeValid_dropLast_none (h mi wd mo d y : ℕ)
    (hh : h ≤ 23) (hmi : mi ≤ 59) (hwd : wd < 7) (hmo1 : 1 ≤ mo) (hmo : mo ≤ 12)
    (hd1 : 1 ≤ d) (hd : d ≤ 31) :
    strptimeValid ((renderValidTS h mi wd mo d y).dropLast) = none := by
  have h4 : (pad4 (y : ℤ)) ≠ [] := by simp [pad4]
  rw [renderValidTS, List.dropLast_append_of_ne_nil _ h4]
  have hdl : (pad4 (y : ℤ)).dropLast
      = [digitChar ((y : ℤ) / 1000), digitChar ((y : ℤ) / 100),
         digitChar ((y : ℤ) / 10)] := rfl
  rw [hdl]
  simp only [List.append_assoc, List.cons_append, List.singleton_append,
    List.nil_append]
  rw [strptimeValid_shape h mi wd mo d _ _ hh hmi hwd hmo1 hmo hd1 hd
    (digitChar_not_space _)]
  rfl

theorem strptimeValid_extra_none (h mi wd mo d y : ℕ) (junk : List Char)
    (hh : h ≤ 23) (hmi : mi ≤ 59) (hwd : wd < 7) (hmo1 : 1 ≤ mo) (hmo : mo ≤ 12)
    (hd1 : 1 ≤ d) (hd : d ≤ 31) (hy : y ≤ 9999) (hjunk : junk ≠ []) :
    strptimeValid (renderValidTS h mi wd mo d y ++ junk) = none := by
  rw [renderValidTS]
  simp only [pad4, List.append_assoc, List.cons_append, List.singleton_append,
    List.nil_append]
  rw [strptimeValid_shape h mi wd mo d _ _ hh hmi hwd hmo1 hmo hd1 hd
    (digitChar_not_space _)]
  have hy4 : parseY (digitChar ((y : ℤ) / 1000) :: digitChar ((y : ℤ) / 100)
      :: digitChar ((y : ℤ) / 10) :: digitChar (y : ℤ) :: junk)
      = some (y, junk) := by
    have := parseY_pad4 y hy junk
    simpa [pad4] using this
  rw [hy4]
  simp only [Option.bind]
  rw [if_neg hjunk]

theorem isPrefixOf_append_self (xs ys : List Char) :
    xs.isPrefixOf (xs ++ ys) = true := by
  rw [List.isPrefixOf_iff_prefix]
  exact List.prefix_append xs ys

theorem containsSub_of_append (p x pat : List Char) :
    containsSub (p ++ (pat ++ x)) pat = true := by
  induction p with
  | nil =>
    rw [List.nil_append]
    match pat, x with
    | [], [] => rfl
    | [], c :: x => rfl
    | c :: pt, x =>
      show ((c :: pt).isPrefixOf (c :: (pt ++ x)) || containsSub (pt ++ x) (c :: pt))
        = true
      rw [show c :: (pt ++ x) = (c :: pt) ++ x from rfl,
        isPrefixOf_append_self (c :: pt) x]
      rfl
  | cons c p ih =>
    show (pat.isPrefixOf (c :: (p ++ (pat ++ x))) || containsSub (p ++ (pat ++ x)) pat)
      = true
    rw [ih]
    simp


/-- C10: the Valid: rule of shift_time parses exactly the slice strictly
between the character after the tag and the final character of the line, so a
line whose canonically rendered timestamp (any in-range field values) runs to
the very end with no trailing terminator loses its last year digit and the
parse raises (returns none, first conjunct), and a line with extra text after
the timestamp beyond the single terminator leaves unconverted data and the
parse raises as well (second conjunct); in neither case is a rewritten line
returned.  The findSub hypotheses pin the tag occurrence the code slices from
(its first) to the displayed one. -/
theorem shift_time_valid_trailing_only
    (p : List Char) (h mi wd mo d y : ℕ) (s : ℤ)
    (hh : h ≤ 23) (hmi : mi ≤ 59) (hwd : wd < 7) (hmo1 : 1 ≤ mo) (hmo : mo ≤ 12)
    (hd1 : 1 ≤ d) (hd : d ≤ 31) (hy : y ≤ 9999) :
    (findSub (p ++ (validTag ++ ' ' :: renderValidTS h mi wd mo d y)) validTag
        = p.length →
      shift_time (p ++ (validTag ++ ' ' :: renderValidTS h mi wd mo d y)) s
        = none) ∧
    (∀ extra : List Char, 2 ≤ extra.length →
      findSub (p ++ (validTag ++ ' ' :: (renderValidTS h mi wd mo d y ++ extra)))
          validTag = p.length →
      shift_time (p ++ (validTag ++ ' ' :: (renderValidTS h mi wd mo d y ++ extra)))
          s = none) := by
  constructor
  · intro hfirst
    have hcon := containsSub_of_append p
      (' ' :: renderValidTS h mi wd mo d y) validTag
    have hdrop : (p ++ (validTag ++ ' ' :: renderValidTS h mi wd mo d y)).drop
        (p.length + 7) = renderValidTS h mi wd mo d y := by
      rw [List.drop_append 7]
      rfl
    simp only [shift_time, hcon, if_true, hfirst, hdrop,
      strptimeValid_dropLast_none h mi wd mo d y hh hmi hwd hmo1 hmo hd1 hd]
  · intro extra hlen hfirst
    have hcon := containsSub_of_append p
      (' ' :: (renderValidTS h mi wd mo d y ++ extra)) validTag
    have hdrop : (p ++ (validTag ++ ' ' ::
        (renderValidTS h mi wd mo d y ++ extra))).drop (p.length + 7)
        = renderValidTS h mi wd mo d y ++ extra := by
      rw [List.drop_append 7]
      rfl
    have hex : extra ≠ [] := by
      intro hc
      rw [hc] at hlen
      simp at hlen
    have hdl : (renderValidTS h mi wd mo d y ++ extra).dropLast
        = renderValidTS h mi wd mo d y ++ extra.dropLast :=
      List.dropLast_append_of_ne_nil _ hex
    have hdle : extra.dropLast ≠ [] := by
      have : extra.dropLast.length = extra.length - 1 := List.length_dropLast extra
      intro hc
      rw [hc] at this
      simp at this
      omega
    simp only [shift_time, hcon, if_true, hfirst, hdrop, hdl,
      strptimeValid_extra_none h mi wd mo d y extra.dropLast hh hmi hwd hmo1 hmo
        hd1 hd hy hdle]


/-- Witness for shift_time_valid_trailing_only at the scenario timestamp
00:30Z Tue Jul 16 2024 (fields 0, 30, weekday index 1, month 7, day 16, year
2024), with prefix empty and extra text of two characters. -/
theorem shift_time_valid_trailing_only_witness :
    shift_time ([] ++ (validTag ++ ' ' :: renderValidTS 0 30 1 7 16 2024)) 3600
        = none ∧
    shift_time ([] ++ (validTag ++ ' ' ::
        (renderValidTS 0 30 1 7 16 2024 ++ ['x', '\n']))) 3600 = none := by
  have h := shift_time_valid_trailing_only [] 0 30 1 7 16 2024 3600
    (by norm_num) (by norm_num) (by norm_num) (by norm_num) (by norm_num)
    (by norm_num) (by norm_num) (by norm_num)
  exact ⟨h.1 (by decide), h.2 ['x', '\n'] (by norm_num) (by decide)⟩

def txtPat : List Char := ['.', 't', 'x', 't']

def shiftedPat : List Char := ['s', 'h', 'i', 'f', 't', 'e', 'd']

def shiftedSuffix : List Char :=
  ['_', 's', 'h', 'i', 'f', 't', 'e', 'd', '.', 't', 'x', 't']

/-- The output name of shift_placefiles:
file_[0:file_.index(".txt")] + "_shifted.txt" - the path is truncated at the
first occurrence of ".txt" in the whole path string. -/
def outfilename (file_ : List Char) : List Char :=
  file_.take (findSub file_ txtPat) ++ shiftedSuffix

/-- The input selection of shift_placefiles: the glob("*.txt") result with
every name containing "shifted" excluded. -/
def selectedFiles (filenames : List (List Char)) : List (List Char) :=
  filenames.filter (fun x => !containsSub x shiftedPat)

/-- The per-file loop of shift_placefiles over a filesystem (a map from
filename to line list): read the input, run the per-line transform (the
time-shift and optional coordinate-shift loop), write its output - the lines
written so far plus a completion flag, false meaning an exception escaped
mid-file after the output file was already opened and truncated - to
outfilename, and continue with the remaining files only on success. The
transform is an arbitrary function here: no property below depends on what
the line loop computes, only on which files are read and written. -/
def runShiftPlacefiles (transform : List (List Char) → List (List Char) × Bool) :
    List (List Char) → (List Char → List (List Char)) → List Char
      → List (List Char)
  | [], fs => fs
  | f :: rest, fs =>
    let out := transform (fs f)
    let fs2 := fun n => if n = outfilename f then out.1 else fs n
    if out.2 then runShiftPlacefiles transform rest fs2 else fs2

/-- shift_placefiles (src/app.py lines 79-107): select the inputs, then run
the per-file loop. -/
def shift_placefiles (transform : List (List Char) → List (List Char) × Bool)
    (filenames : List (List Char)) (fs : List Char → List (List Char)) :
    List Char → List (List Char) :=
  runShiftPlacefiles transform (selectedFiles filenames) fs

theorem containsSub_outfilename (f : List Char) :
    containsSub (outfilename f) shiftedPat = true := by
  have h := containsSub_of_append (f.take (findSub f txtPat) ++ ['_'])
    ['.', 't', 'x', 't'] shiftedPat
  simpa [outfilename, shiftedSuffix, shiftedPat, List.append_assoc] using h

theorem runShiftPlacefiles_untouched
    (transform : List (List Char) → List (List Char) × Bool)
    (l : List (List Char)) (fs : List Char → List (List Char))
    (name : List Char) (hname : containsSub name shiftedPat = false) :
    runShiftPlacefiles transform l fs name = fs name := by
  induction l generalizing fs with
  | nil => rfl
  | cons f rest ih =>
    have hne : name ≠ outfilename f := by
      intro hc
      rw [hc, containsSub_outfilename f] at hname
      cases hname
    rw [runShiftPlacefiles]
    split
    · rw [ih]
      simp [hne]
    · simp [hne]

/-- C8 counterexample: for the directory "/d.txt" (a path containing ".txt"),
the source "/d.txt/a.txt" is rewritten to "/d_shifted.txt", because the output
name truncates the path at the first occurrence of ".txt" in the whole path;
the output is neither named <stem>_shifted.txt nor a sibling in the same
directory, contradicting the claim's naming clause.  (No source is overwritten
even here; see the amended theorem.) -/
theorem outfilename_truncates_at_first_txt :
    outfilename (("/d.txt/a.txt").toList) = ("/d_shifted.txt").toList ∧
    outfilename (("/d.txt/a.txt").toList) ≠ ("/d.txt/a_shifted.txt").toList := by
  constructor
  · decide
  · decide

/-- C8 amended: the rewrite pass never overwrites a source file.  Previously
produced outputs (any name containing "shifted", in particular every
<stem>_shifted.txt) are excluded from the inputs; every selected input is free
of "shifted" while every written name contains it, so for every per-line
transform - even one aborted mid-file - the contents of every name not
containing "shifted" (hence of every original input) are unchanged by the
pass.  The output name is stem ++ "_shifted.txt" (a sibling in the same
directory) provided the first occurrence of ".txt" in the path is its final
extension; for paths with an earlier ".txt" the name is truncated there
instead (see the counterexample). -/
theorem shift_placefiles_never_overwrites :
    (∀ (filenames : List (List Char)) (f : List Char),
      f ∈ selectedFiles filenames → containsSub f shiftedPat = false) ∧
    (∀ (filenames : List (List Char)) (f : List Char),
      containsSub f shiftedPat = true → f ∉ selectedFiles filenames) ∧
    (∀ f : List Char, containsSub (outfilename f) shiftedPat = true) ∧
    (∀ (transform : List (List Char) → List (List Char) × Bool)
        (filenames : List (List Char)) (fs : List Char → List (List Char))
        (name : List Char), containsSub name shiftedPat = false →
      shift_placefiles transform filenames fs name = fs name) ∧
    (∀ stem : List Char, findSub (stem ++ txtPat) txtPat = stem.length →
      outfilename (stem ++ txtPat) = stem ++ shiftedSuffix) := by
  refine ⟨?_, ?_, containsSub_outfilename, ?_, ?_⟩
  · intro filenames f hf
    rw [selectedFiles, List.mem_filter] at hf
    simpa using hf.2
  · intro filenames f hf hc
    rw [selectedFiles, List.mem_filter] at hc
    rw [hf] at hc
    simpa using hc.2
  · intro transform filenames fs name hname
    exact runShiftPlacefiles_untouched transform _ fs name hname
  · intro stem hfind
    rw [outfilename, hfind, List.take_left]

/-- Witness for shift_placefiles_never_overwrites on a directory holding one
source and one previous output: only the source is selected, the pass leaves
the source's contents unchanged, and the output name is the _shifted sibling. -/
theorem shift_placefiles_never_overwrites_witness :
    containsSub (("/p/a.txt").toList) shiftedPat = false ∧
    (("/p/b_shifted.txt").toList)
        ∉ selectedFiles [("/p/a.txt").toList, ("/p/b_shifted.txt").toList] ∧
    shift_placefiles (fun c => (c, true))
        [("/p/a.txt").toList, ("/p/b_shifted.txt").toList]
        (fun _ => [("x").toList]) (("/p/a.txt").toList) = [("x").toList] ∧
    outfilename (("/p/a").toList ++ txtPat) = ("/p/a").toList ++ shiftedSuffix := by
  have h := shift_placefiles_never_overwrites
  refine ⟨by decide, h.2.1 _ _ (by decide) , ?_, h.2.2.2.2 (("/p/a").toList) (by decide)⟩
  exact h.2.2.2.1 (fun c => (c, true)) _ _ _ (by decide)


/-! GeodesicTransposer (move_point, src/app.py lines 137-187), over the reals
as the idealisation of the double-precision computation.  math.atan2 is the
principal argument of the complex point (x, y), in (-pi, pi]. -/

noncomputable section

open Real

def atan2 (y x : ℝ) : ℝ := Complex.arg (Complex.mk x y)

/-- math.radians. -/
def radians (x : ℝ) : ℝ := x * π / 180

/-- math.degrees. -/
def degrees (x : ℝ) : ℝ := x * 180 / π

/-- Python float modulo: the result has the sign of the divisor. -/
def pymodR (x y : ℝ) : ℝ := x - y * ⌊x / y⌋

/-- Earth radius used by move_point (the module constant R). -/
def R_earth : ℝ := 6378137

/-- The local helper _clamp of move_point. -/
def clampR (n minimum maximum : ℝ) : ℝ := max (min maximum n) minimum

/-- move_point: haversine distance and initial bearing from the original
radar to the point, then the forward geodesic from the new radar. -/
def move_point (plat plon lat lon new_radar_lat new_radar_lon : ℝ) : ℝ × ℝ :=
  let phi1 := radians lat
  let phi2 := radians plat
  let d_phi := radians (plat - lat)
  let d_lambda := radians (plon - lon)
  let a0 := Real.sin (d_phi / 2) ^ 2
    + Real.cos phi1 * Real.cos phi2 * Real.sin (d_lambda / 2) ^ 2
  let a := clampR a0 0 a0
  let c := 2 * atan2 (Real.sqrt a) (Real.sqrt (1 - a))
  let d := R_earth * c
  let y := Real.sin d_lambda * Real.cos phi2
  let x := Real.cos phi1 * Real.sin phi2
    - Real.sin phi1 * Real.cos phi2 * Real.cos d_lambda
  let theta := atan2 y x
  let bearing := pymodR (degrees theta + 360) 360
  let phi_new := radians new_radar_lat
  let lambda_new := radians new_radar_lon
  let phi_out := Real.arcsin (Real.sin phi_new * Real.cos (d / R_earth)
    + Real.cos phi_new * Real.sin (d / R_earth) * Real.cos (radians bearing))
  let lambda_out := lambda_new
    + atan2 (Real.sin (radians bearing) * Real.sin (d / R_earth) * Real.cos phi_new)
        (Real.cos (d / R_earth) - Real.sin phi_new * Real.sin phi_out)
  (degrees phi_out, degrees lambda_out)

theorem degrees_radians (x : ℝ) : degrees (radians x) = x := by
  rw [degrees, radians]
  field_simp

theorem atan2_unit (t : ℝ) (ht1 : -π < t) (ht2 : t ≤ π) (r : ℝ) (hr : 0 < r) :
    atan2 (r * Real.sin t) (r * Real.cos t) = t := by
  rw [atan2]
  have hmk : Complex.mk (r * Real.cos t) (r * Real.sin t)
      = (r : ℂ) * (Complex.cos t + Complex.sin t * Complex.I) := by
    rw [← Complex.ofReal_cos, ← Complex.ofReal_sin]
    apply Complex.ext
    · simp only [Complex.mul_re, Complex.mul_im, Complex.add_re, Complex.add_im,
        Complex.ofReal_re, Complex.ofReal_im, Complex.I_re, Complex.I_im]
      ring
    · simp only [Complex.mul_re, Complex.mul_im, Complex.add_re, Complex.add_im,
        Complex.ofReal_re, Complex.ofReal_im, Complex.I_re, Complex.I_im]
      ring
  rw [hmk, Complex.arg_real_mul _ hr, Complex.arg_cos_add_sin_mul_I ⟨ht1, ht2⟩]

theorem atan2_zero_pos (x : ℝ) (hx : 0 < x) : atan2 0 x = 0 := by
  rw [atan2]
  have : Complex.mk x 0 = (x : ℂ) := rfl
  rw [this, Complex.arg_ofReal_of_nonneg (le_of_lt hx)]

theorem atan2_zero_neg (x : ℝ) (hx : x < 0) : atan2 0 x = π := by
  rw [atan2]
  have : Complex.mk x 0 = (x : ℂ) := rfl
  rw [this, Complex.arg_ofReal_of_neg hx]

theorem atan2_zero_zero : atan2 0 0 = 0 := by
  rw [atan2]
  have : Complex.mk 0 0 = (0 : ℂ) := rfl
  rw [this, Complex.arg_zero]

theorem atan2_one_zero : atan2 1 0 = π / 2 := by
  rw [atan2]
  have : Complex.mk 0 1 = Complex.I := rfl
  rw [this, Complex.arg_I]

theorem abs_mk_sq (x y : ℝ) :
    Complex.abs (Complex.mk x y) = Real.sqrt (x ^ 2 + y ^ 2) := by
  rw [Complex.abs_apply, Complex.normSq_mk]
  ring_nf

theorem cos_atan2 (y x : ℝ) (h : Complex.mk x y ≠ 0) :
    Real.cos (atan2 y x) = x / Real.sqrt (x ^ 2 + y ^ 2) := by
  rw [atan2, Complex.cos_arg h, abs_mk_sq]

theorem sin_atan2 (y x : ℝ) :
    Real.sin (atan2 y x) = y / Real.sqrt (x ^ 2 + y ^ 2) := by
  rw [atan2, Complex.sin_arg, abs_mk_sq]

theorem cos_radians_bearing (t : ℝ) :
    Real.cos (radians (pymodR (degrees t + 360) 360)) = Real.cos t := by
  have hb : radians (pymodR (degrees t + 360) 360)
      = t + ((1 - ⌊(degrees t + 360) / 360⌋ : ℤ) : ℝ) * (2 * π) := by
    rw [pymodR, radians, degrees]
    push_cast
    field_simp
    ring
  rw [hb, Real.cos_add_int_mul_two_pi]

theorem sin_radians_bearing (t : ℝ) :
    Real.sin (radians (pymodR (degrees t + 360) 360)) = Real.sin t := by
  have hb : radians (pymodR (degrees t + 360) 360)
      = t + ((1 - ⌊(degrees t + 360) / 360⌋ : ℤ) : ℝ) * (2 * π) := by
    rw [pymodR, radians, degrees]
    push_cast
    field_simp
    ring
  rw [hb, Real.sin_add_int_mul_two_pi]

theorem radians_inj (u v : ℝ) (h : radians u = radians v) : u = v := by
  rw [radians, radians] at h
  have hπ := Real.pi_pos
  field_simp at h
  rcases h with h | h
  · exact h
  · exact absurd h (ne_of_gt hπ)

theorem antipode_of_Z_neg_one (t1 t2 D : ℝ)
    (h1l : -(π / 2) < t1) (h1u : t1 < π / 2) (h2l : -(π / 2) < t2) (h2u : t2 < π / 2)
    (c1pos : 0 < Real.cos t1) (c2pos : 0 < Real.cos t2)
    (hZ : Real.sin t1 * Real.sin t2 + Real.cos t1 * Real.cos t2 * Real.cos D = -1) :
    t2 = -t1 ∧ Real.cos D = -1 := by
  have hπ := Real.pi_pos
  have hca := Real.cos_add t1 t2
  have e1 : 0 ≤ Real.cos t1 * Real.cos t2 * (1 + Real.cos D) :=
    mul_nonneg (mul_pos c1pos c2pos).le (by linarith [Real.neg_one_le_cos D])
  have e2 : Real.cos (t1 + t2) = 1 + Real.cos t1 * Real.cos t2 * (1 + Real.cos D) := by
    linear_combination hca - hZ
  have hsum1 : Real.cos (t1 + t2) = 1 :=
    le_antisymm (Real.cos_le_one _) (by linarith)
  have hs12 : t1 + t2 = 0 :=
    (Real.cos_eq_one_iff_of_lt_of_lt (by linarith) (by linarith)).mp hsum1
  have ht2 : t2 = -t1 := by linarith
  refine ⟨ht2, ?_⟩
  have p1 := Real.sin_sq_add_cos_sq t1
  rw [ht2, Real.sin_neg, Real.cos_neg] at hZ
  have hfac : Real.cos t1 ^ 2 * (Real.cos D + 1) = 0 := by
    linear_combination hZ + p1
  rcases mul_eq_zero.mp hfac with hc | hc
  · exact absurd hc (ne_of_gt (pow_pos c1pos 2))
  · linarith

theorem eq_pi_of_cos_neg_one (D : ℝ) (hl : -π < D) (hu : D ≤ π)
    (hcD : Real.cos D = -1) : D = π := by
  have hπ := Real.pi_pos
  have hcos2 : Real.cos (D / 2) = 0 := by
    have h := Real.cos_sq (D / 2)
    rw [show 2 * (D / 2) = D by ring, hcD] at h
    have h0 : Real.cos (D / 2) ^ 2 = 0 := by rw [h]; ring
    exact sq_eq_zero_iff.mp h0
  rw [Real.cos_eq_zero_iff] at hcos2
  obtain ⟨n, hn⟩ := hcos2
  have hb1 : -(π / 2) < (2 * (n : ℝ) + 1) * π / 2 := by rw [← hn]; linarith
  have hb2 : (2 * (n : ℝ) + 1) * π / 2 ≤ π / 2 := by rw [← hn]; linarith
  have hn1 : (0 : ℝ) < ((n : ℝ) + 1) * π := by linarith
  have hn2 : ((n : ℝ)) * π ≤ 0 := by linarith
  have c1' : (0 : ℝ) < (n : ℝ) + 1 := by
    by_contra hc
    push_neg at hc
    nlinarith
  have c2' : ((n : ℝ)) ≤ 0 := by
    by_contra hc
    push_neg at hc
    nlinarith
  have hn0 : n = 0 := by
    have d1 : (0 : ℤ) < n + 1 := by exact_mod_cast c1'
    have d2 : (n : ℤ) ≤ 0 := by exact_mod_cast c2'
    omega
  rw [hn0] at hn
  push_cast at hn
  linarith

theorem sin_sq_bearing_decomp (t1 t2 D : ℝ) :
    (Real.cos t1 * Real.sin t2 - Real.sin t1 * Real.cos t2 * Real.cos D) ^ 2
      + (Real.sin D * Real.cos t2) ^ 2
    = 1 - (Real.sin t1 * Real.sin t2 + Real.cos t1 * Real.cos t2 * Real.cos D) ^ 2 := by
  have p1 := Real.sin_sq_add_cos_sq t1
  have p2 := Real.sin_sq_add_cos_sq t2
  have p3 := Real.sin_sq_add_cos_sq D
  linear_combination (Real.sin t2 ^ 2 + Real.cos t2 ^ 2 * Real.cos D ^ 2) * p1 + p2
    + Real.cos t2 ^ 2 * p3

set_option maxHeartbeats 8000000 in
/-- C5: move_point with the destination radar equal to the origin radar is the
identity transform, for points and radars in natural coordinate ranges:
latitudes strictly inside (-90, 90) and a longitude difference in (-180, 180].
Outside those ranges the haversine/bearing round trip normalises coordinates
instead of returning them unchanged. -/
theorem move_point_same_radar (plat plon lat lon : ℝ)
    (h1 : |plat| < 90) (h2 : |lat| < 90)
    (h3 : -180 < plon - lon) (h4 : plon - lon ≤ 180) :
    move_point plat plon lat lon lat lon = (plat, plon) := by
  have hπ := Real.pi_pos
  obtain ⟨h1l, h1u⟩ := abs_lt.mp h1
  obtain ⟨h2l, h2u⟩ := abs_lt.mp h2
  have hφ1l : -(π / 2) < radians lat := by rw [radians]; nlinarith
  have hφ1u : radians lat < π / 2 := by rw [radians]; nlinarith
  have hφ2l : -(π / 2) < radians plat := by rw [radians]; nlinarith
  have hφ2u : radians plat < π / 2 := by rw [radians]; nlinarith
  have hΔl : -π < radians (plon - lon) := by rw [radians]; nlinarith
  have hΔu : radians (plon - lon) ≤ π := by rw [radians]; nlinarith
  have c1pos : 0 < Real.cos (radians lat) := Real.cos_pos_of_mem_Ioo ⟨hφ1l, hφ1u⟩
  have c2pos : 0 < Real.cos (radians plat) := Real.cos_pos_of_mem_Ioo ⟨hφ2l, hφ2u⟩
  have hdphi : radians (plat - lat) = radians plat - radians lat := by
    rw [radians, radians, radians]; ring
  have hlon : radians lon + radians (plon - lon) = radians plon := by
    rw [radians, radians, radians]; ring
  rw [move_point, hdphi]
  set φ1 := radians lat with hφ1def
  set φ2 := radians plat with hφ2def
  set Δ := radians (plon - lon) with hΔdef
  set a0 := Real.sin ((φ2 - φ1) / 2) ^ 2
    + Real.cos φ1 * Real.cos φ2 * Real.sin (Δ / 2) ^ 2 with ha0def
  have p1 := Real.sin_sq_add_cos_sq φ1
  have p2 := Real.sin_sq_add_cos_sq φ2
  have p3 := Real.sin_sq_add_cos_sq Δ
  have key : 1 - 2 * a0
      = Real.sin φ1 * Real.sin φ2 + Real.cos φ1 * Real.cos φ2 * Real.cos Δ := by
    rw [ha0def]
    have hs1 : Real.sin ((φ2 - φ1) / 2) ^ 2 = 1 / 2 - Real.cos (φ2 - φ1) / 2 := by
      have h := Real.sin_sq_eq_half_sub ((φ2 - φ1) / 2)
      rwa [show 2 * ((φ2 - φ1) / 2) = φ2 - φ1 by ring] at h
    have hs2 : Real.sin (Δ / 2) ^ 2 = 1 / 2 - Real.cos Δ / 2 := by
      have h := Real.sin_sq_eq_half_sub (Δ / 2)
      rwa [show 2 * (Δ / 2) = Δ by ring] at h
    have hcsub : Real.cos (φ2 - φ1)
        = Real.cos φ2 * Real.cos φ1 + Real.sin φ2 * Real.sin φ1 := Real.cos_sub _ _
    rw [hs1, hs2, hcsub]
    ring
  have hA0nonneg : 0 ≤ a0 := by
    rw [ha0def]
    have := sq_nonneg (Real.sin ((φ2 - φ1) / 2))
    have := sq_nonneg (Real.sin (Δ / 2))
    nlinarith [mul_pos c1pos c2pos]
  have hA0le1 : a0 ≤ 1 := by
    nlinarith [key, Real.cos_add φ1 φ2, Real.cos_le_one (φ1 + φ2),
      Real.neg_one_le_cos Δ, mul_pos c1pos c2pos]
  have hClamp : clampR a0 0 a0 = a0 := by
    rw [clampR, min_self]
    exact max_eq_left hA0nonneg
  rw [hClamp]
  rcases eq_or_lt_of_le hA0nonneg with hz | ha0pos
  · have ha0z : Real.sin ((φ2 - φ1) / 2) ^ 2
        + Real.cos φ1 * Real.cos φ2 * Real.sin (Δ / 2) ^ 2 = 0 := by
      rw [← ha0def, ← hz]
    have hA : Real.sin ((φ2 - φ1) / 2) = 0 := by
      have h0 : Real.sin ((φ2 - φ1) / 2) ^ 2 = 0 := by
        nlinarith [sq_nonneg (Real.sin (Δ / 2)),
          sq_nonneg (Real.sin ((φ2 - φ1) / 2)), mul_pos c1pos c2pos]
      exact sq_eq_zero_iff.mp h0
    have hB : Real.sin (Δ / 2) = 0 := by
      have h0 : Real.sin (Δ / 2) ^ 2 = 0 := by
        nlinarith [sq_nonneg (Real.sin (Δ / 2)),
          sq_nonneg (Real.sin ((φ2 - φ1) / 2)), mul_pos c1pos c2pos]
      exact sq_eq_zero_iff.mp h0
    have hφ21 : φ2 = φ1 := by
      have h0 := (Real.sin_eq_zero_iff_of_lt_of_lt
        (by linarith : -π < (φ2 - φ1) / 2) (by linarith : (φ2 - φ1) / 2 < π)).mp hA
      linarith
    have hΔ0 : Δ = 0 := by
      have h0 := (Real.sin_eq_zero_iff_of_lt_of_lt
        (by linarith : -π < Δ / 2) (by linarith : Δ / 2 < π)).mp hB
      linarith
    rw [hφ21, hΔ0, ← hz]
    have hc0 : R_earth * (2 * atan2 (Real.sqrt 0) (Real.sqrt (1 - 0))) / R_earth
        = 0 := by
      rw [Real.sqrt_zero, show (1 : ℝ) - 0 = 1 by norm_num, Real.sqrt_one,
        atan2_zero_pos 1 one_pos]
      norm_num
    rw [hc0]
    have hth : atan2 (Real.sin 0 * Real.cos φ1)
        (Real.cos φ1 * Real.sin φ1 - Real.sin φ1 * Real.cos φ1 * Real.cos 0)
        = 0 := by
      rw [Real.sin_zero, Real.cos_zero, zero_mul,
        show Real.cos φ1 * Real.sin φ1 - Real.sin φ1 * Real.cos φ1 * 1 = 0 by ring]
      exact atan2_zero_zero
    rw [hth]
    have hbr : radians (pymodR (degrees 0 + 360) 360) = 0 := by
      rw [pymodR, degrees, radians]
      norm_num
    rw [hbr]
    simp only [Real.sin_zero, Real.cos_zero, mul_one, mul_zero, zero_mul,
      add_zero, zero_add]
    have harc : Real.arcsin (Real.sin φ1) = φ1 :=
      Real.arcsin_sin (by linarith) (by linarith)
    rw [harc]
    have hpl : plat = lat := by
      apply radians_inj
      rw [← hφ2def, ← hφ1def, hφ21]
    have hpo : plon = lon := by
      have h0 : radians (plon - lon) = radians 0 := by
        rw [← hΔdef, hΔ0, radians, zero_mul, zero_div]
      have := radians_inj _ _ h0
      linarith
    have hsec : atan2 0 (1 - Real.sin φ1 * Real.sin φ1) = 0 := by
      apply atan2_zero_pos
      have h' : 1 - Real.sin φ1 * Real.sin φ1 = Real.cos φ1 ^ 2 := by
        linear_combination (-1 : ℝ) * p1
      rw [h']
      exact pow_pos c1pos 2
    rw [hsec, add_zero, hpl, hpo, hφ1def, degrees_radians, degrees_radians]
  rcases eq_or_lt_of_le hA0le1 with ho | ha0lt
  · -- a0 = 1: the point is the exact antipode of the radar
    have hZ : Real.sin φ1 * Real.sin φ2 + Real.cos φ1 * Real.cos φ2 * Real.cos Δ
        = -1 := by rw [← key, ho]; norm_num
    obtain ⟨hφ2neg, hcD⟩ := antipode_of_Z_neg_one φ1 φ2 Δ hφ1l hφ1u hφ2l hφ2u
      c1pos c2pos hZ
    have hΔpi : Δ = π := eq_pi_of_cos_neg_one Δ hΔl hΔu hcD
    have hplon : plon - lon = 180 := by
      apply radians_inj
      rw [← hΔdef, hΔpi, radians]
      field_simp
    rw [ho, hφ2neg, hΔpi]
    have hR : R_earth ≠ 0 := by rw [R_earth]; norm_num
    have hcpi : R_earth * (2 * atan2 (Real.sqrt 1) (Real.sqrt (1 - 1))) / R_earth
        = π := by
      rw [Real.sqrt_one, show (1 : ℝ) - 1 = 0 by norm_num, Real.sqrt_zero,
        atan2_one_zero, show 2 * (π / 2) = π by ring, mul_div_assoc]
      field_simp
    rw [hcpi]
    simp only [Real.sin_neg, Real.cos_neg, Real.sin_pi, Real.cos_pi]
    have hth : atan2 (0 * Real.cos φ1)
        (Real.cos φ1 * -Real.sin φ1 - Real.sin φ1 * Real.cos φ1 * -1) = 0 := by
      rw [zero_mul,
        show Real.cos φ1 * -Real.sin φ1 - Real.sin φ1 * Real.cos φ1 * -1 = 0
          by ring]
      exact atan2_zero_zero
    rw [hth]
    have hbr : radians (pymodR (degrees 0 + 360) 360) = 0 := by
      rw [pymodR, degrees, radians]
      norm_num
    rw [hbr]
    simp only [Real.sin_zero, Real.cos_zero, mul_one, mul_zero, zero_mul,
      add_zero, zero_add]
    have harc : Real.arcsin (Real.sin φ1 * -1) = -φ1 := by
      rw [show Real.sin φ1 * -1 = Real.sin (-φ1) by rw [Real.sin_neg]; ring]
      exact Real.arcsin_sin (by linarith) (by linarith)
    rw [harc]
    have hsec : atan2 0 (-1 - Real.sin φ1 * Real.sin (-φ1)) = π := by
      apply atan2_zero_neg
      have h' : -1 - Real.sin φ1 * Real.sin (-φ1) = -(Real.cos φ1 ^ 2) := by
        rw [Real.sin_neg]
        linear_combination p1
      rw [h']
      exact neg_neg_of_pos (pow_pos c1pos 2)
    rw [hsec]
    have hplat : plat = -lat := by
      have h0 : radians plat = radians (-lat) := by
        rw [← hφ2def, hφ2neg, hφ1def, radians, radians]
        ring
      exact radians_inj _ _ h0
    have hneg : -φ1 = radians (-lat) := by
      rw [hφ1def, radians, radians]
      ring
    have hc1 : degrees (-φ1) = plat := by
      rw [hneg, degrees_radians, hplat]
    have hx : radians lon + π = radians (lon + 180) := by
      rw [radians, radians]
      ring
    have hc2 : degrees (radians lon + π) = plon := by
      rw [hx, degrees_radians]
      linear_combination (-1 : ℝ) * hplon
    rw [hc1, hc2]
  · -- 0 < a0 < 1: the general case
    have hR : R_earth ≠ 0 := by rw [R_earth]; norm_num
    set y0 := Real.sin Δ * Real.cos φ2 with hy0
    set x0 := Real.cos φ1 * Real.sin φ2 - Real.sin φ1 * Real.cos φ2 * Real.cos Δ
      with hx0
    set γ := Real.arcsin (Real.sqrt a0) with hγdef
    have h1a0 : 0 < 1 - a0 := by linarith
    have hs0 : 0 < Real.sqrt a0 := Real.sqrt_pos.mpr ha0pos
    have hγpos : 0 < γ := by rw [hγdef]; exact Real.arcsin_pos.mpr hs0
    have hγle : γ ≤ π / 2 := by rw [hγdef]; exact Real.arcsin_le_pi_div_two _
    have hsinγ : Real.sin γ = Real.sqrt a0 := by
      rw [hγdef]
      exact Real.sin_arcsin (by linarith) (Real.sqrt_le_one.mpr (by linarith))
    have hcosγ : Real.cos γ = Real.sqrt (1 - a0) := by
      rw [hγdef, Real.cos_arcsin, Real.sq_sqrt hA0nonneg]
    have hatan : atan2 (Real.sqrt a0) (Real.sqrt (1 - a0)) = γ := by
      have h := atan2_unit γ (by linarith) (by linarith) 1 one_pos
      rwa [one_mul, one_mul, hsinγ, hcosγ] at h
    have hd : R_earth * (2 * atan2 (Real.sqrt a0) (Real.sqrt (1 - a0))) / R_earth
        = 2 * γ := by
      rw [hatan, mul_div_cancel_left₀ _ hR]
    have hsin2γ : Real.sin (2 * γ) = 2 * Real.sqrt a0 * Real.sqrt (1 - a0) := by
      rw [Real.sin_two_mul, hsinγ, hcosγ]
    have hsin2γpos : 0 < Real.sin (2 * γ) := by
      rw [hsin2γ]
      exact mul_pos (mul_pos two_pos hs0) (Real.sqrt_pos.mpr h1a0)
    have hcos2γ : Real.cos (2 * γ) = 1 - 2 * a0 := by
      rw [Real.cos_two_mul, hcosγ, Real.sq_sqrt (by linarith : (0:ℝ) ≤ 1 - a0)]
      ring
    have hZc : Real.cos (2 * γ)
        = Real.sin φ1 * Real.sin φ2 + Real.cos φ1 * Real.cos φ2 * Real.cos Δ := by
      rw [hcos2γ, key]
    have hsq : x0 ^ 2 + y0 ^ 2 = Real.sin (2 * γ) ^ 2 := by
      rw [hx0, hy0, sin_sq_bearing_decomp φ1 φ2 Δ, Real.sin_sq, hZc]
    have hne : Complex.mk x0 y0 ≠ 0 := by
      intro h
      have h0 : Complex.normSq (Complex.mk x0 y0) = 0 := by
        rw [h, Complex.normSq_zero]
      rw [Complex.normSq_mk] at h0
      have h1 : Real.sin (2 * γ) ^ 2 = 0 := by
        rw [← hsq]
        linear_combination h0
      exact hsin2γpos.ne' (sq_eq_zero_iff.mp h1)
    have hcosθ : Real.cos (atan2 y0 x0) = x0 / Real.sin (2 * γ) := by
      rw [cos_atan2 y0 x0 hne, hsq, Real.sqrt_sq hsin2γpos.le]
    have hsinθ : Real.sin (atan2 y0 x0) = y0 / Real.sin (2 * γ) := by
      rw [sin_atan2, hsq, Real.sqrt_sq hsin2γpos.le]
    rw [hd, cos_radians_bearing, sin_radians_bearing, hcosθ, hsinθ]
    have harg1 : Real.sin φ1 * Real.cos (2 * γ)
        + Real.cos φ1 * Real.sin (2 * γ) * (x0 / Real.sin (2 * γ))
        = Real.sin φ2 := by
      rw [mul_assoc, mul_comm (Real.sin (2 * γ)), div_mul_cancel₀ _ hsin2γpos.ne',
        hZc, hx0]
      linear_combination Real.sin φ2 * p1
    rw [harg1]
    have harcs : Real.arcsin (Real.sin φ2) = φ2 :=
      Real.arcsin_sin (by linarith) (by linarith)
    rw [harcs]
    have harg2 : y0 / Real.sin (2 * γ) * Real.sin (2 * γ) * Real.cos φ1
        = Real.cos φ1 * Real.cos φ2 * Real.sin Δ := by
      rw [div_mul_cancel₀ _ hsin2γpos.ne', hy0]
      ring
    have harg3 : Real.cos (2 * γ) - Real.sin φ1 * Real.sin φ2
        = Real.cos φ1 * Real.cos φ2 * Real.cos Δ := by
      rw [hZc]
      ring
    rw [harg2, harg3]
    have hat : atan2 (Real.cos φ1 * Real.cos φ2 * Real.sin Δ)
        (Real.cos φ1 * Real.cos φ2 * Real.cos Δ) = Δ :=
      atan2_unit Δ hΔl hΔu (Real.cos φ1 * Real.cos φ2) (mul_pos c1pos c2pos)
    rw [hat, hφ2def, hΔdef, hlon, degrees_radians, degrees_radians]

/-- C5: counterexample to the unconditional claim. With the point 360 degrees
east of the radar (plat 0, plon 360, radar at 0,0), move_point with the same
radar as origin and target returns (0, 0), not the original (0, 360): the
bearing/haversine round trip normalises the longitude rather than preserving
the raw coordinates. -/
theorem move_point_same_radar_not_identity :
    move_point 0 360 0 0 0 0 = ((0:ℝ), (0:ℝ))
      ∧ ((0:ℝ), (0:ℝ)) ≠ ((0:ℝ), (360:ℝ)) := by
  constructor
  · have hπ := Real.pi_pos
    have r0 : radians 0 = 0 := by rw [radians]; ring
    have r360 : radians 360 = 2 * π := by rw [radians]; ring
    have hdeg0 : degrees 0 = 0 := by rw [degrees]; ring
    have hhalf : (2:ℝ) * π / 2 = π := by ring
    have hmod : pymodR 360 360 = 0 := by
      rw [pymodR]
      norm_num
    have hclamp : clampR 0 0 0 = 0 := by
      rw [clampR]
      norm_num
    have hap : atan2 0 1 = 0 := atan2_zero_pos 1 one_pos
    rw [move_point, sub_zero, sub_zero, r0, r360]
    norm_num [hhalf, Real.sin_zero, Real.cos_zero, Real.sqrt_zero, Real.sqrt_one,
      Real.sin_pi, Real.cos_two_pi, Real.sin_two_pi, hclamp, hap, atan2_zero_zero,
      hdeg0, hmod, r0, Real.arcsin_zero]
  · intro h
    have h2 := congrArg Prod.snd h
    norm_num at h2

theorem move_point_same_radar_witness :
    move_point 10 5 10 5 10 5 = ((10:ℝ), (5:ℝ)) :=
  move_point_same_radar 10 5 10 5
    (by rw [show |(10:ℝ)| = 10 from abs_of_pos (by norm_num)]; norm_num)
    (by rw [show |(10:ℝ)| = 10 from abs_of_pos (by norm_num)]; norm_num)
    (by norm_num) (by norm_num)

end

end CloudRadar
